import Mathlib

/-!
Verification development for the spytrap-adb command-line entry point
(`src/main.rs`) and, where the corresponding modules are not part of the
sources, models of the `ioc`, `rules` and download operations taken from the
specification.

The entry point is embedded shallowly: every external call (spawning `adb`,
reading the rules file, initialising the IOC repository, acquiring the device,
running the scan) is represented by its result, supplied through an
environment record, and the control flow of `main`'s subcommand branches is
translated into pure Lean functions that return the program result together
with the ordered list of observable effects.
-/

namespace Spytrap

/-- The `args::AdbServerChoice` enum referenced by `main.rs`; only the `Never`
variant is inspected there. -/
inductive AdbServerChoice
  | auto
  | always
  | never
deriving Repr, DecidableEq

/-- Exit status of a spawned child process; `main.rs` only inspects
`status.success()`. -/
structure ExitStatus where
  success : Bool
deriving Repr, DecidableEq

/-- Errors produced by the embedded control flow: `context` mirrors anyhow's
`.context(...)` wrapping, `msg` an underlying error message, and
`noRulesAvailable` the spec's `NoRulesAvailable` classification. -/
inductive Err
  | noRulesAvailable
  | context (msg : String) (cause : Err)
  | msg (s : String)
deriving Repr, DecidableEq

/-- The persisted `RepositoryState` sidecar record: fingerprint of the cached
bytes and the upstream git commit recorded at the last successful download. -/
structure UpdateState where
  sha256 : String
  git_commit : String
deriving Repr, DecidableEq

/-- The in-memory repository handle produced by `ioc::Repository::init()`, as
used by `main.rs`: only its optional `update_state` is read. -/
structure Repository where
  update_state : Option UpdateState
deriving Repr, DecidableEq

/-- The fields of `args::Scan` that `main.rs` reads. -/
structure ScanArgs where
  rules : Option String
  serial : Option String
  test_load_only : Bool
deriving Repr, DecidableEq

/-- Observable effects of one invocation of the entry point, in program
order. -/
inductive Effect
  | spawnAdb
  | loadRules (path : String)
  | repoInit
  | logCommit (commit : String)
  | deviceAcquire (serial : Option String)
  | scanRun
  | fetchIoc
deriving Repr, DecidableEq

/-- Results of the external calls a `scan` subcommand invocation can make,
in the order `main.rs` makes them.  `load` is indexed by the path passed to
`rules::load_map_from_file`, since different paths may hold different bytes. -/
structure ScanEnv where
  adbSpawn : Except String ExitStatus
  cacheExists : Bool
  cachePath : String
  load : String → Except String (List String × String)
  repoInit : Except String Repository
  device : Except String Unit
  scanResult : Except String Unit

/-- Embedding of `ensure_adb_running` (main.rs:14-28): unless the choice is
`Never`, spawn `adb start-server`; fail if the spawn fails (with context
"Failed to start adb binary") or the status is non-success; otherwise ok. -/
def ensure_adb_running (choice : AdbServerChoice) (spawn : Except String ExitStatus) :
    Except Err Unit × List Effect :=
  if choice = AdbServerChoice.never then
    (Except.ok (), [])
  else
    match spawn with
    | Except.error e =>
        (Except.error (Err.context "Failed to start adb binary" (Err.msg e)),
         [Effect.spawnAdb])
    | Except.ok status =>
        if status.success then
          (Except.ok (), [Effect.spawnAdb])
        else
          (Except.error (Err.msg "Failed to ensure adb server is running"),
           [Effect.spawnAdb])

/-- Modelled from the spec: `ioc::Repository::ioc_file_path` is not among the
sources (only its caller `main.rs` is).  Per the spec's `currentRuleSetPath()`
(section 4.2), when no cached rule document exists the result is an error
classified `NoRulesAvailable` instructing the caller to download first;
otherwise the cached IOC file's path. -/
def ioc_file_path (cacheExists : Bool) (cachePath : String) : Except Err String :=
  if cacheExists then Except.ok cachePath else Except.error Err.noRulesAvailable

/-- The rules-path choice of main.rs:51-56: the explicitly supplied path when
present, otherwise the repository's cached IOC file path. -/
def rules_path_choice (scan : ScanArgs) (env : ScanEnv) : Except Err String :=
  match scan.rules with
  | some p => Except.ok p
  | none => ioc_file_path env.cacheExists env.cachePath

/-- The tail of the `scan` branch after the rules were loaded (main.rs:66-92):
initialise the repository, log commit provenance exactly when the persisted
update state's sha256 equals the sha256 of the loaded file, return early on
`test_load_only`, otherwise acquire the device and run the scan. -/
def scanFromLoaded (scan : ScanArgs) (env : ScanEnv) (sha256 : String)
    (t : List Effect) : Except Err Unit × List Effect :=
  match env.repoInit with
  | Except.error e => (Except.error (Err.msg e), t ++ [Effect.repoInit])
  | Except.ok repo =>
    let t2 := (t ++ [Effect.repoInit]) ++
      (match repo.update_state with
       | some us =>
           if us.sha256 = sha256 then [Effect.logCommit us.git_commit] else []
       | none => [])
    if scan.test_load_only then
      (Except.ok (), t2)
    else
      match env.device with
      | Except.error e =>
          (Except.error (Err.context "Failed to access device" (Err.msg e)),
           t2 ++ [Effect.deviceAcquire scan.serial])
      | Except.ok _ =>
          match env.scanResult with
          | Except.error e =>
              (Except.error (Err.msg e),
               t2 ++ [Effect.deviceAcquire scan.serial, Effect.scanRun])
          | Except.ok _ =>
              (Except.ok (), t2 ++ [Effect.deviceAcquire scan.serial, Effect.scanRun])

/-- Embedding of the `Scan` branch of `main` (main.rs:48-93): ensure adb is
running, choose the rules path (explicit over cache), load the rules (failure
wrapped with context "Failed to load rules"), then continue with
`scanFromLoaded`. -/
def runScan (choice : AdbServerChoice) (scan : ScanArgs) (env : ScanEnv) :
    Except Err Unit × List Effect :=
  match ensure_adb_running choice env.adbSpawn with
  | (Except.error e, t) => (Except.error e, t)
  | (Except.ok _, t) =>
    match rules_path_choice scan env with
    | Except.error e => (Except.error e, t)
    | Except.ok rules_path =>
      let t := t ++ [Effect.loadRules rules_path]
      match env.load rules_path with
      | Except.error e =>
          (Except.error (Err.context "Failed to load rules" (Err.msg e)), t)
      | Except.ok (_, sha256) => scanFromLoaded scan env sha256 t

/-- A deterministic polynomial fingerprint of a string, standing in for the
sha256 content hash the repository computes over raw bytes. -/
def strFingerprint (s : String) : Nat :=
  s.foldl (fun h c => (h * 131 + c.toNat) % (2 ^ 64)) 7

/-- The fingerprint of cached rule-document bytes, rendered like the textual
sha256 field of `RepositoryState`. -/
def fingerprint (bytes : String) : String :=
  toString (strFingerprint bytes)

/-- Filesystem state shared across process invocations: the cached rule
document, the temporary download location and the persisted
`RepositoryState`. -/
structure Fs where
  cacheFile : Option String
  tmpFile : Option String
  state : Option UpdateState
deriving Repr, DecidableEq

/-- Modelled from the spec: `Repository::download_ioc_file` is not among the
sources (only its caller `main.rs` is).  Per section 4.2 `download()`: fetch
the rule document and its upstream commit; on fetch failure surface the error
and leave everything untouched; if the fetched fingerprint equals the stored
state's fingerprint, skip the replacement; otherwise write the bytes to a
temporary location (a write that fails midway leaves a truncated temporary
file, position `k`) and then atomically rename it over the cache, updating the
`RepositoryState`.  The returned list is every filesystem state a concurrent
reader could observe during the attempt, in order; the last entry is the final
state. -/
def download_states (fetch : Except String (String × String)) (writeOk : Bool)
    (k : Nat) (fs : Fs) : List Fs × Except String Unit :=
  match fetch with
  | Except.error e => ([fs], Except.error e)
  | Except.ok (bytes, commit) =>
      if fs.state.map UpdateState.sha256 = some (fingerprint bytes) then
        ([fs], Except.ok ())
      else
        let mid : Fs := { fs with tmpFile := some (bytes.take k) }
        if writeOk then
          let written : Fs := { fs with tmpFile := some bytes }
          let renamed : Fs :=
            { cacheFile := some bytes, tmpFile := none,
              state := some { sha256 := fingerprint bytes, git_commit := commit } }
          ([fs, mid, written, renamed], Except.ok ())
        else
          ([fs, mid], Except.error "failed to write ioc file")

/-- The result and final filesystem state of one `download_ioc_file` call. -/
def download_ioc_file (fetch : Except String (String × String)) (writeOk : Bool)
    (k : Nat) (fs : Fs) : Except String Unit × Fs :=
  let sr := download_states fetch writeOk k fs
  (sr.2, sr.1.getLastD fs)

/-- Results of the external calls a `download-ioc` subcommand invocation can
make. -/
structure DownloadEnv where
  repoInit : Except String Fs
  fetch : Except String (String × String)
  writeOk : Bool
  k : Nat

/-- Embedding of the `DownloadIoc` branch of `main` (main.rs:114-119):
initialise the repository, then download, wrapping a download failure with
context "Failed to download stalkerware-indicators ioc.yaml".  Returns the
program result and the final filesystem state (none when init itself
failed). -/
def runDownload (env : DownloadEnv) : Except Err Unit × Option Fs :=
  match env.repoInit with
  | Except.error e => (Except.error (Err.msg e), none)
  | Except.ok fs =>
      let rf := download_ioc_file env.fetch env.writeOk env.k fs
      match rf.1 with
      | Except.error e =>
          (Except.error
            (Err.context "Failed to download stalkerware-indicators ioc.yaml"
              (Err.msg e)), some rf.2)
      | Except.ok _ => (Except.ok (), some rf.2)

/-- Severity tier of one IOC rule. -/
inductive Severity
  | info
  | warning
  | critical
deriving Repr, DecidableEq

/-- The closed set of match-predicate kinds of one IOC rule. -/
inductive Predicate
  | packageId (id : String)
  | packagePattern (pat : String)
  | permissions (perms : List String)
  | labelSubstring (s : String)
  | processName (n : String)
deriving Repr, DecidableEq

/-- One IOC rule of the rule document. -/
structure Rule where
  id : String
  description : String
  severity : Severity
  predicates : List Predicate
deriving Repr, DecidableEq

/-- A parsed rule set: the rules in document order plus the content
fingerprint of the input. -/
structure RuleSet where
  rules : List Rule
  fingerprint : Nat
deriving Repr, DecidableEq

def serializeSeverity : Severity → String
  | Severity.info => "info"
  | Severity.warning => "warning"
  | Severity.critical => "critical"

def serializePredicate : Predicate → String
  | Predicate.packageId id => "packageId:" ++ id
  | Predicate.packagePattern pat => "packagePattern:" ++ pat
  | Predicate.permissions perms => "permissions:" ++ String.intercalate "," perms
  | Predicate.labelSubstring s => "labelSubstring:" ++ s
  | Predicate.processName n => "processName:" ++ n

def serializeRule (r : Rule) : String :=
  r.id ++ "|" ++ r.description ++ "|" ++ serializeSeverity r.severity ++ "|"
    ++ String.intercalate ";" (r.predicates.map serializePredicate)

/-- The canonical serialized form of a rule document, standing in for its raw
bytes. -/
def serializeDoc (d : List Rule) : String :=
  String.intercalate "\n" (d.map serializeRule)

/-- Whether the document holds two rules with the same identifier. -/
def hasDupIds : List Rule → Bool
  | [] => false
  | r :: rs => rs.any (fun r2 => r2.id = r.id) || hasDupIds rs

/-- Modelled from the spec: the parser behind `rules::load_map_from_file` is
not among the sources.  Per sections 3 and 4.1: duplicate rule identifiers
invalidate the whole set, a rule with zero predicates is a parse-time error,
and on success the fingerprint is computed over the raw input (here its
canonical serialized form), not over the parsed structure. -/
def parseRules (doc : List Rule) : Except String RuleSet :=
  if doc.any (fun r => r.predicates.isEmpty) then
    Except.error "rule with zero predicates"
  else if hasDupIds doc then
    Except.error "duplicate rule identifier"
  else
    Except.ok { rules := doc, fingerprint := strFingerprint (serializeDoc doc) }

/-- Modelled from the spec: `rules::load_map_from_file` reads the rule
document and delegates to the parser, returning the rules together with the
fingerprint of the raw input (section 4.2 `loadRuleSet`). -/
def load_map_from_file (doc : List Rule) : Except String (List Rule × Nat) :=
  match parseRules doc with
  | Except.error e => Except.error e
  | Except.ok rs => Except.ok (rs.rules, rs.fingerprint)

/-! ## Helper lemmas -/

/-- The trace of `ensure_adb_running` is either empty or the single spawn of
`adb start-server`. -/
theorem ensure_adb_trace (choice : AdbServerChoice) (spawn : Except String ExitStatus) :
    (ensure_adb_running choice spawn).2 = [] ∨
    (ensure_adb_running choice spawn).2 = [Effect.spawnAdb] := by
  unfold ensure_adb_running
  split
  · exact Or.inl rfl
  · cases spawn with
    | error e => exact Or.inr rfl
    | ok st => by_cases hs : st.success <;> simp [hs]

/-! ## Claims -/

/-- Claim C9: `ensure_adb_running` is a no-op returning Ok (no command
spawned) when the adb-server choice is `Never`; for every other choice it
spawns `adb start-server` and fails when the spawn fails or the status is
non-success, succeeding otherwise. -/
theorem C9_ensure_adb_running (choice : AdbServerChoice)
    (spawn : Except String ExitStatus) :
    (choice = AdbServerChoice.never →
      ensure_adb_running choice spawn = (Except.ok (), [])) ∧
    (choice ≠ AdbServerChoice.never →
      (ensure_adb_running choice spawn).2 = [Effect.spawnAdb] ∧
      (∀ e, spawn = Except.error e →
        (ensure_adb_running choice spawn).1 =
          Except.error (Err.context "Failed to start adb binary" (Err.msg e))) ∧
      (∀ st, spawn = Except.ok st → st.success = false →
        (ensure_adb_running choice spawn).1 =
          Except.error (Err.msg "Failed to ensure adb server is running")) ∧
      (∀ st, spawn = Except.ok st → st.success = true →
        (ensure_adb_running choice spawn).1 = Except.ok ())) := by
  constructor
  · intro h
    simp [ensure_adb_running, h]
  · intro h
    refine ⟨?_, ?_, ?_, ?_⟩
    · rcases spawn with e | st
      · simp [ensure_adb_running, h]
      · by_cases hs : st.success <;> simp [ensure_adb_running, h, hs]
    · rintro e rfl
      simp [ensure_adb_running, h]
    · rintro st rfl hs
      simp [ensure_adb_running, h, hs]
    · rintro st rfl hs
      simp [ensure_adb_running, h, hs]

/-- Witness for C9 at concrete inputs. -/
theorem C9_ensure_adb_running_witness :
    ensure_adb_running AdbServerChoice.never (Except.error "no adb") =
      (Except.ok (), []) ∧
    (ensure_adb_running AdbServerChoice.auto
      (Except.ok { success := true })).1 = Except.ok () :=
  ⟨(C9_ensure_adb_running AdbServerChoice.never (Except.error "no adb")).1 rfl,
   ((C9_ensure_adb_running AdbServerChoice.auto
      (Except.ok { success := true })).2 (by decide)).2.2.2
      { success := true } rfl rfl⟩

/-- Claim C7: parsing is deterministic — two runs of the load operation on the
same document yield identical rule lists (same rules, same order) and
identical fingerprints. -/
theorem C7_parse_deterministic (d : List Rule) (r1 r2 : List Rule × Nat)
    (h1 : load_map_from_file d = Except.ok r1)
    (h2 : load_map_from_file d = Except.ok r2) :
    r1.1 = r2.1 ∧ r1.2 = r2.2 := by
  have h := Except.ok.inj (h1.symm.trans h2)
  exact ⟨congrArg Prod.fst h, congrArg Prod.snd h⟩

/-- A concrete one-rule document for the C7 witness. -/
def docW : List Rule :=
  [{ id := "example-rule", description := "an example",
     severity := Severity.critical,
     predicates := [Predicate.packageId "com.example.spy"] }]

/-- Witness for C7 at a concrete document. -/
theorem C7_parse_deterministic_witness :
    (docW, strFingerprint (serializeDoc docW)).1 =
      (docW, strFingerprint (serializeDoc docW)).1 ∧
    (docW, strFingerprint (serializeDoc docW)).2 =
      (docW, strFingerprint (serializeDoc docW)).2 :=
  C7_parse_deterministic docW _ _ rfl rfl

/-- Claim C5: a failed IOC download is surfaced to the caller wrapped with
context, and the filesystem state (in particular the cached file) is exactly
what it was before the attempt. -/
theorem C5_download_failure_surfaced (env : DownloadEnv) (fs : Fs) (e : String)
    (hinit : env.repoInit = Except.ok fs)
    (hfetch : env.fetch = Except.error e) :
    runDownload env =
      (Except.error
        (Err.context "Failed to download stalkerware-indicators ioc.yaml"
          (Err.msg e)),
       some fs) := by
  simp [runDownload, hinit, download_ioc_file, download_states, hfetch]

/-- A concrete prior filesystem state for the download witnesses. -/
def fsOld : Fs :=
  { cacheFile := some "old bytes", tmpFile := none,
    state := some { sha256 := "oldsha", git_commit := "oldcommit" } }

/-- A concrete download environment whose fetch fails, for the C5 witness. -/
def envDl : DownloadEnv :=
  { repoInit := Except.ok fsOld,
    fetch := Except.error "network unreachable",
    writeOk := true, k := 0 }

/-- Witness for C5 at a concrete environment. -/
theorem C5_download_failure_surfaced_witness :
    runDownload envDl =
      (Except.error
        (Err.context "Failed to download stalkerware-indicators ioc.yaml"
          (Err.msg "network unreachable")),
       some fsOld) :=
  C5_download_failure_surfaced envDl fsOld "network unreachable" rfl rfl

/-- Claim C6: every filesystem state observable during a download attempt has
the cached file equal either to its prior contents or to the complete fetched
bytes (and the latter only when the fetched fingerprint differs from the
stored state); if the download fails, every observable state — including the
final one — has the cached file byte-identical to before the attempt. -/
theorem C6_atomic_cache_replace (fetch : Except String (String × String))
    (writeOk : Bool) (k : Nat) (fs s : Fs)
    (hmem : s ∈ (download_states fetch writeOk k fs).1) :
    (∀ e, (download_states fetch writeOk k fs).2 = Except.error e →
      s.cacheFile = fs.cacheFile) ∧
    (s.cacheFile = fs.cacheFile ∨
      ∃ bytes commit, fetch = Except.ok (bytes, commit) ∧
        s.cacheFile = some bytes ∧
        fs.state.map UpdateState.sha256 ≠ some (fingerprint bytes)) := by
  rcases fetch with e | ⟨bytes, commit⟩
  · simp only [download_states, List.mem_singleton] at hmem
    subst hmem
    exact ⟨fun _ _ => rfl, Or.inl rfl⟩
  · by_cases hfp : fs.state.map UpdateState.sha256 = some (fingerprint bytes)
    · simp only [download_states, hfp, if_true, List.mem_singleton] at hmem
      subst hmem
      exact ⟨fun _ _ => rfl, Or.inl rfl⟩
    · rcases hw : writeOk with _ | _
      · simp [download_states, hfp, hw] at hmem
        rcases hmem with rfl | rfl
        · exact ⟨fun _ _ => rfl, Or.inl rfl⟩
        · exact ⟨fun _ _ => rfl, Or.inl rfl⟩
      · simp [download_states, hfp, hw] at hmem
        rcases hmem with rfl | rfl | rfl | rfl
        · exact ⟨fun _ _ => rfl, Or.inl rfl⟩
        · exact ⟨fun _ _ => rfl, Or.inl rfl⟩
        · exact ⟨fun _ _ => rfl, Or.inl rfl⟩
        · refine ⟨?_, Or.inr ⟨bytes, commit, rfl, rfl, hfp⟩⟩
          intro e he
          simp [download_states, hfp, hw] at he

/-- A fetch result delivering fresh bytes, for the C6 witness. -/
def fetchNew : Except String (String × String) :=
  Except.ok ("new bytes", "commit-1")

/-- A filesystem state with a cached file but no recorded state, for the C6
witness. -/
def fsNoState : Fs :=
  { cacheFile := some "old bytes", tmpFile := none, state := none }

/-- Witness for C6 at a concrete download attempt. -/
theorem C6_atomic_cache_replace_witness :
    (∀ e, (download_states fetchNew true 3 fsNoState).2 = Except.error e →
      fsNoState.cacheFile = fsNoState.cacheFile) ∧
    (fsNoState.cacheFile = fsNoState.cacheFile ∨
      ∃ bytes commit, fetchNew = Except.ok (bytes, commit) ∧
        fsNoState.cacheFile = some bytes ∧
        fsNoState.state.map UpdateState.sha256 ≠ some (fingerprint bytes)) :=
  C6_atomic_cache_replace fetchNew true 3 fsNoState fsNoState (by decide)

/-! ## Structural lemmas about the scan flow -/

/-- Every effect of the prefix trace survives into `scanFromLoaded`'s trace. -/
theorem scanFromLoaded_extends (scan : ScanArgs) (env : ScanEnv) (sha : String)
    (t : List Effect) (x : Effect) (hx : x ∈ t) :
    x ∈ (scanFromLoaded scan env sha t).2 := by
  rcases hr : env.repoInit with e | repo
  · simp [scanFromLoaded, hr, hx]
  · rcases hu : repo.update_state with _ | us <;>
      rcases htlo : scan.test_load_only with _ | _ <;>
      rcases hd : env.device with e2 | u <;>
      rcases hs : env.scanResult with e3 | u2 <;>
      simp [scanFromLoaded, hr, hu, htlo, hd, hs, hx]

/-- `scanFromLoaded` (main.rs:66-92) never loads a rules file: a rules-load
effect in its trace was in the prefix trace already. -/
theorem scanFromLoaded_load_mem (scan : ScanArgs) (env : ScanEnv) (sha : String)
    (t : List Effect) (q : String)
    (hx : Effect.loadRules q ∈ (scanFromLoaded scan env sha t).2) :
    Effect.loadRules q ∈ t := by
  rcases hr : env.repoInit with e | repo
  · simp [scanFromLoaded, hr] at hx
    exact hx
  · rcases hu : repo.update_state with _ | us <;>
      rcases htlo : scan.test_load_only with _ | _ <;>
      rcases hd : env.device with e2 | u <;>
      rcases hs : env.scanResult with e3 | u2 <;>
      simp [scanFromLoaded, hr, hu, htlo, hd, hs] at hx <;>
      exact hx

/-- `scanFromLoaded` (main.rs:66-92) never downloads the IOC database: a
fetch effect in its trace was in the prefix trace already. -/
theorem scanFromLoaded_fetch_mem (scan : ScanArgs) (env : ScanEnv) (sha : String)
    (t : List Effect)
    (hx : Effect.fetchIoc ∈ (scanFromLoaded scan env sha t).2) :
    Effect.fetchIoc ∈ t := by
  rcases hr : env.repoInit with e | repo
  · simp [scanFromLoaded, hr] at hx
    exact hx
  · rcases hu : repo.update_state with _ | us <;>
      rcases htlo : scan.test_load_only with _ | _ <;>
      rcases hd : env.device with e2 | u <;>
      rcases hs : env.scanResult with e3 | u2 <;>
      simp [scanFromLoaded, hr, hu, htlo, hd, hs] at hx <;>
      exact hx

/-- The scan effect appears in `scanFromLoaded`'s trace only when it was in
the prefix already, or when `test_load_only` is unset, repository init
succeeded and the device was acquired successfully. -/
theorem scanFromLoaded_scanRun (scan : ScanArgs) (env : ScanEnv) (sha : String)
    (t : List Effect) (hx : Effect.scanRun ∈ (scanFromLoaded scan env sha t).2) :
    Effect.scanRun ∈ t ∨
      (scan.test_load_only = false ∧ env.device = Except.ok () ∧
        ∃ repo, env.repoInit = Except.ok repo) := by
  rcases hr : env.repoInit with e | repo
  · simp [scanFromLoaded, hr] at hx
    tauto
  · rcases hu : repo.update_state with _ | us <;>
      rcases htlo : scan.test_load_only with _ | _ <;>
      rcases hd : env.device with e2 | u <;>
      rcases hs : env.scanResult with e3 | u2 <;>
      simp [scanFromLoaded, hr, hu, htlo, hd, hs] <;>
      first
        | tauto
        | (simp [scanFromLoaded, hr, hu, htlo, hd, hs] at hx <;> tauto)

/-- The device-acquisition effect appears in `scanFromLoaded`'s trace only
when it was in the prefix already, or when it names the scan's serial,
`test_load_only` is unset and repository init succeeded. -/
theorem scanFromLoaded_deviceAcquire (scan : ScanArgs) (env : ScanEnv)
    (sha : String) (t : List Effect) (s : Option String)
    (hx : Effect.deviceAcquire s ∈ (scanFromLoaded scan env sha t).2) :
    Effect.deviceAcquire s ∈ t ∨
      (s = scan.serial ∧ scan.test_load_only = false ∧
        ∃ repo, env.repoInit = Except.ok repo) := by
  rcases hr : env.repoInit with e | repo
  · simp [scanFromLoaded, hr] at hx
    tauto
  · rcases hu : repo.update_state with _ | us <;>
      rcases htlo : scan.test_load_only with _ | _ <;>
      rcases hd : env.device with e2 | u <;>
      rcases hs : env.scanResult with e3 | u2 <;>
      simp [scanFromLoaded, hr, hu, htlo, hd, hs] <;>
      first
        | tauto
        | (simp [scanFromLoaded, hr, hu, htlo, hd, hs] at hx <;> tauto)

/-- When repository init succeeded, `test_load_only` is unset and device
acquisition fails, `scanFromLoaded` returns the device error wrapped with
context. -/
theorem scanFromLoaded_device_err (scan : ScanArgs) (env : ScanEnv)
    (sha : String) (t : List Effect) (repo : Repository) (e : String)
    (hr : env.repoInit = Except.ok repo) (htlo : scan.test_load_only = false)
    (hd : env.device = Except.error e) :
    (scanFromLoaded scan env sha t).1 =
      Except.error (Err.context "Failed to access device" (Err.msg e)) := by
  simp [scanFromLoaded, hr, htlo, hd]

/-- When repository init succeeded and `test_load_only` is set,
`scanFromLoaded` returns success. -/
theorem scanFromLoaded_tlo (scan : ScanArgs) (env : ScanEnv) (sha : String)
    (t : List Effect) (repo : Repository)
    (hr : env.repoInit = Except.ok repo) (htlo : scan.test_load_only = true) :
    (scanFromLoaded scan env sha t).1 = Except.ok () := by
  simp [scanFromLoaded, hr, htlo]

/-- When repository init succeeded, the commit-provenance effect is in
`scanFromLoaded`'s trace exactly when it was in the prefix already or the
persisted update state exists, its sha256 equals the loaded file's sha256,
and the logged commit is its git commit. -/
theorem scanFromLoaded_logCommit (scan : ScanArgs) (env : ScanEnv)
    (sha : String) (t : List Effect) (repo : Repository) (c : String)
    (hr : env.repoInit = Except.ok repo) :
    (Effect.logCommit c ∈ (scanFromLoaded scan env sha t).2 ↔
      Effect.logCommit c ∈ t ∨
        ∃ us, repo.update_state = some us ∧ us.sha256 = sha ∧
          c = us.git_commit) := by
  rcases hu : repo.update_state with _ | us
  · rcases htlo : scan.test_load_only with _ | _ <;>
      rcases hd : env.device with e2 | u <;>
      rcases hs : env.scanResult with e3 | u2 <;>
      simp [scanFromLoaded, hr, hu, htlo, hd, hs]
  · by_cases hsha : us.sha256 = sha <;>
      rcases htlo : scan.test_load_only with _ | _ <;>
      rcases hd : env.device with e2 | u <;>
      rcases hs : env.scanResult with e3 | u2 <;>
      simp [scanFromLoaded, hr, hu, htlo, hd, hs, hsha]

/-- Every effect of an `ensure_adb_running` trace is the adb spawn. -/
theorem adb_trace_spawn (choice : AdbServerChoice) (spawn : Except String ExitStatus)
    (r : Except Err Unit) (tadb : List Effect)
    (h : ensure_adb_running choice spawn = (r, tadb)) :
    ∀ x ∈ tadb, x = Effect.spawnAdb := by
  have ht := ensure_adb_trace choice spawn
  rw [h] at ht
  simp at ht
  rcases ht with rfl | rfl <;> simp

/-- When adb startup succeeds, the path resolves and the rules load fails,
`runScan` stops with the load error in context, having only spawned adb and
attempted the one load. -/
theorem runScan_load_err (choice : AdbServerChoice) (scan : ScanArgs)
    (env : ScanEnv) (tadb : List Effect) (rp : String) (e : String)
    (hadb : ensure_adb_running choice env.adbSpawn = (Except.ok (), tadb))
    (hpath : rules_path_choice scan env = Except.ok rp)
    (hload : env.load rp = Except.error e) :
    runScan choice scan env =
      (Except.error (Err.context "Failed to load rules" (Err.msg e)),
       tadb ++ [Effect.loadRules rp]) := by
  simp [runScan, hadb, hpath, hload]

/-- When adb startup succeeds, the path resolves and the rules load succeeds,
`runScan` continues as `scanFromLoaded`. -/
theorem runScan_load_ok (choice : AdbServerChoice) (scan : ScanArgs)
    (env : ScanEnv) (tadb : List Effect) (rp : String) (rs : List String)
    (sha : String)
    (hadb : ensure_adb_running choice env.adbSpawn = (Except.ok (), tadb))
    (hpath : rules_path_choice scan env = Except.ok rp)
    (hload : env.load rp = Except.ok (rs, sha)) :
    runScan choice scan env =
      scanFromLoaded scan env sha (tadb ++ [Effect.loadRules rp]) := by
  simp [runScan, hadb, hpath, hload]

/-- Case analysis of a `runScan` invocation: either it stopped before loading
rules (trace holds at most the adb spawn), or adb startup succeeded, the path
resolved, and the load either failed (stopping the run) or succeeded (the run
continues as `scanFromLoaded`). -/
theorem runScan_cases (choice : AdbServerChoice) (scan : ScanArgs) (env : ScanEnv) :
    (∀ x ∈ (runScan choice scan env).2, x = Effect.spawnAdb) ∨
    ∃ tadb rp, ensure_adb_running choice env.adbSpawn = (Except.ok (), tadb) ∧
      (∀ x ∈ tadb, x = Effect.spawnAdb) ∧
      rules_path_choice scan env = Except.ok rp ∧
      ((∃ e, env.load rp = Except.error e ∧
          runScan choice scan env =
            (Except.error (Err.context "Failed to load rules" (Err.msg e)),
             tadb ++ [Effect.loadRules rp])) ∨
       (∃ rs sha, env.load rp = Except.ok (rs, sha) ∧
          runScan choice scan env =
            scanFromLoaded scan env sha (tadb ++ [Effect.loadRules rp]))) := by
  rcases hE : ensure_adb_running choice env.adbSpawn with ⟨r, t⟩
  have htx : ∀ x ∈ t, x = Effect.spawnAdb := adb_trace_spawn choice env.adbSpawn r t hE
  rcases r with e | u
  · left
    have heq : runScan choice scan env = (Except.error e, t) := by
      simp [runScan, hE]
    rw [heq]
    exact htx
  · cases u
    rcases hp : rules_path_choice scan env with e | rp
    · left
      have heq : runScan choice scan env = (Except.error e, t) := by
        simp [runScan, hE, hp]
      rw [heq]
      exact htx
    · right
      refine ⟨t, rp, rfl, htx, rfl, ?_⟩
      rcases hl : env.load rp with e | ⟨rs, sha⟩
      · exact Or.inl ⟨e, rfl, runScan_load_err choice scan env t rp e hE hp hl⟩
      · exact Or.inr ⟨rs, sha, rfl, runScan_load_ok choice scan env t rp rs sha hE hp hl⟩

/-- Claim C1: the rules file path is chosen by precedence — an explicitly
supplied path is the one and only path loaded, and when none is supplied and
the cache exists, the cached IOC file path is loaded. -/
theorem C1_rules_path_precedence (choice : AdbServerChoice) (scan : ScanArgs)
    (env : ScanEnv) (tadb : List Effect)
    (hadb : ensure_adb_running choice env.adbSpawn = (Except.ok (), tadb)) :
    (∀ p, scan.rules = some p →
      Effect.loadRules p ∈ (runScan choice scan env).2 ∧
      ∀ q, Effect.loadRules q ∈ (runScan choice scan env).2 → q = p) ∧
    (scan.rules = none → env.cacheExists = true →
      Effect.loadRules env.cachePath ∈ (runScan choice scan env).2) := by
  have htx := adb_trace_spawn choice env.adbSpawn (Except.ok ()) tadb hadb
  constructor
  · intro p hp
    have hpath : rules_path_choice scan env = Except.ok p := by
      simp [rules_path_choice, hp]
    constructor
    · rcases hl : env.load p with e | ⟨rs, sha⟩
      · rw [runScan_load_err choice scan env tadb p e hadb hpath hl]
        simp
      · rw [runScan_load_ok choice scan env tadb p rs sha hadb hpath hl]
        exact scanFromLoaded_extends scan env sha _ _ (by simp)
    · intro q hq
      rcases hl : env.load p with e | ⟨rs, sha⟩
      · rw [runScan_load_err choice scan env tadb p e hadb hpath hl] at hq
        simp at hq
        rcases hq with hq | hq
        · exact absurd (htx _ hq) (by simp)
        · exact hq
      · rw [runScan_load_ok choice scan env tadb p rs sha hadb hpath hl] at hq
        have hm := scanFromLoaded_load_mem scan env sha _ q hq
        simp at hm
        rcases hm with hm | hm
        · exact absurd (htx _ hm) (by simp)
        · exact hm
  · intro hp hc
    have hpath : rules_path_choice scan env = Except.ok env.cachePath := by
      simp [rules_path_choice, hp, ioc_file_path, hc]
    rcases hl : env.load env.cachePath with e | ⟨rs, sha⟩
    · rw [runScan_load_err choice scan env tadb env.cachePath e hadb hpath hl]
      simp
    · rw [runScan_load_ok choice scan env tadb env.cachePath rs sha hadb hpath hl]
      exact scanFromLoaded_extends scan env sha _ _ (by simp)

/-- A scan invocation with an explicit rules path, for the C1 witness. -/
def scanC1 : ScanArgs :=
  { rules := some "/rules/custom.yaml", serial := none, test_load_only := false }

/-- Environment for the C1 witness. -/
def envC1 : ScanEnv :=
  { adbSpawn := Except.ok { success := true },
    cacheExists := true, cachePath := "/cache/ioc.yaml",
    load := fun _ => Except.ok (["r1"], "sha-1"),
    repoInit := Except.ok { update_state := none },
    device := Except.ok (), scanResult := Except.ok () }

/-- Witness for C1 at a concrete invocation. -/
theorem C1_rules_path_precedence_witness :
    Effect.loadRules "/rules/custom.yaml" ∈
      (runScan AdbServerChoice.never scanC1 envC1).2 :=
  ((C1_rules_path_precedence AdbServerChoice.never scanC1 envC1 [] rfl).1
    "/rules/custom.yaml" rfl).1

/-- Claim C2: if device acquisition fails the scan is never invoked and the
device error is returned in context; the scan effect only ever occurs after
device acquisition succeeded. -/
theorem C2_device_failure_blocks_scan (choice : AdbServerChoice)
    (scan : ScanArgs) (env : ScanEnv) :
    (∀ e, env.device = Except.error e →
      Effect.scanRun ∉ (runScan choice scan env).2 ∧
      (Effect.deviceAcquire scan.serial ∈ (runScan choice scan env).2 →
        (runScan choice scan env).1 =
          Except.error (Err.context "Failed to access device" (Err.msg e)))) ∧
    (Effect.scanRun ∈ (runScan choice scan env).2 →
      env.device = Except.ok ()) := by
  have hscan : Effect.scanRun ∈ (runScan choice scan env).2 →
      env.device = Except.ok () := by
    intro hx
    rcases runScan_cases choice scan env with h | ⟨tadb, rp, hadb, htx, hpath, h⟩
    · exact absurd (h _ hx) (by simp)
    · rcases h with ⟨e, hl, heq⟩ | ⟨rs, sha, hl, heq⟩
      · rw [heq] at hx
        simp at hx
        exact absurd (htx _ hx) (by simp)
      · rw [heq] at hx
        rcases scanFromLoaded_scanRun scan env sha _ hx with h2 | ⟨_, hd, _⟩
        · simp at h2
          exact absurd (htx _ h2) (by simp)
        · exact hd
  refine ⟨?_, hscan⟩
  intro e he
  refine ⟨?_, ?_⟩
  · intro hx
    have hd := hscan hx
    rw [he] at hd
    exact absurd hd (by simp)
  · intro hx
    rcases runScan_cases choice scan env with h | ⟨tadb, rp, hadb, htx, hpath, h⟩
    · exact absurd (h _ hx) (by simp)
    · rcases h with ⟨e2, hl, heq⟩ | ⟨rs, sha, hl, heq⟩
      · rw [heq] at hx
        simp at hx
        exact absurd (htx _ hx) (by simp)
      · rw [heq] at hx
        rcases scanFromLoaded_deviceAcquire scan env sha _ scan.serial hx with
          h2 | ⟨_, htlo, repo, hr⟩
        · simp at h2
          exact absurd (htx _ h2) (by simp)
        · rw [heq]
          exact scanFromLoaded_device_err scan env sha _ repo e hr htlo he

/-- A scan invocation whose device acquisition will fail, for the C2
witness. -/
def scanC2 : ScanArgs :=
  { rules := some "/rules/custom.yaml", serial := some "emulator-5554",
    test_load_only := false }

/-- Environment for the C2 witness: the device is unreachable. -/
def envC2 : ScanEnv :=
  { adbSpawn := Except.ok { success := true },
    cacheExists := true, cachePath := "/cache/ioc.yaml",
    load := fun _ => Except.ok (["r1"], "sha-1"),
    repoInit := Except.ok { update_state := none },
    device := Except.error "device offline", scanResult := Except.ok () }

/-- Witness for C2 at a concrete invocation. -/
theorem C2_device_failure_blocks_scan_witness :
    Effect.scanRun ∉ (runScan AdbServerChoice.never scanC2 envC2).2 :=
  ((C2_device_failure_blocks_scan AdbServerChoice.never scanC2 envC2).1
    "device offline" rfl).1

/-- Claim C3: a failing rules load is fatal for the invocation — the wrapped
load error is returned, no IOC download is attempted, and no other rules
source is tried (the one chosen path is the only load). -/
theorem C3_load_failure_is_fatal (choice : AdbServerChoice) (scan : ScanArgs)
    (env : ScanEnv) (tadb : List Effect) (rp : String) (e : String)
    (hadb : ensure_adb_running choice env.adbSpawn = (Except.ok (), tadb))
    (hpath : rules_path_choice scan env = Except.ok rp)
    (hload : env.load rp = Except.error e) :
    (runScan choice scan env).1 =
      Except.error (Err.context "Failed to load rules" (Err.msg e)) ∧
    Effect.fetchIoc ∉ (runScan choice scan env).2 ∧
    ∀ q, Effect.loadRules q ∈ (runScan choice scan env).2 → q = rp := by
  have htx := adb_trace_spawn choice env.adbSpawn (Except.ok ()) tadb hadb
  have heq := runScan_load_err choice scan env tadb rp e hadb hpath hload
  refine ⟨by rw [heq], ?_, ?_⟩
  · rw [heq]
    intro hx
    simp at hx
    exact absurd (htx _ hx) (by simp)
  · intro q hq
    rw [heq] at hq
    simp at hq
    rcases hq with hq | hq
    · exact absurd (htx _ hq) (by simp)
    · exact hq

/-- A scan invocation whose rules file fails to parse, for the C3 witness. -/
def scanC3 : ScanArgs :=
  { rules := some "/rules/bad.yaml", serial := none, test_load_only := false }

/-- Environment for the C3 witness: loading the rules file fails. -/
def envC3 : ScanEnv :=
  { adbSpawn := Except.ok { success := true },
    cacheExists := true, cachePath := "/cache/ioc.yaml",
    load := fun _ => Except.error "invalid yaml",
    repoInit := Except.ok { update_state := none },
    device := Except.ok (), scanResult := Except.ok () }

/-- Witness for C3 at a concrete invocation. -/
theorem C3_load_failure_is_fatal_witness :
    (runScan AdbServerChoice.never scanC3 envC3).1 =
      Except.error (Err.context "Failed to load rules" (Err.msg "invalid yaml")) :=
  (C3_load_failure_is_fatal AdbServerChoice.never scanC3 envC3 []
    "/rules/bad.yaml" "invalid yaml" rfl rfl rfl).1

/-- Claim C4: with no explicit rules path and no cached rule document, the
scan invocation fails with the `NoRulesAvailable` classification. -/
theorem C4_no_rules_available (choice : AdbServerChoice) (scan : ScanArgs)
    (env : ScanEnv) (tadb : List Effect)
    (hadb : ensure_adb_running choice env.adbSpawn = (Except.ok (), tadb))
    (hnone : scan.rules = none) (hcache : env.cacheExists = false) :
    (runScan choice scan env).1 = Except.error Err.noRulesAvailable := by
  simp [runScan, hadb, rules_path_choice, hnone, ioc_file_path, hcache]

/-- A scan invocation with no explicit rules path, for the C4 witness. -/
def scanC4 : ScanArgs :=
  { rules := none, serial := none, test_load_only := false }

/-- Environment for the C4 witness: no cached rule document exists. -/
def envC4 : ScanEnv :=
  { adbSpawn := Except.ok { success := true },
    cacheExists := false, cachePath := "/cache/ioc.yaml",
    load := fun _ => Except.error "unused",
    repoInit := Except.ok { update_state := none },
    device := Except.ok (), scanResult := Except.ok () }

/-- Witness for C4 at a concrete invocation. -/
theorem C4_no_rules_available_witness :
    (runScan AdbServerChoice.never scanC4 envC4).1 =
      Except.error Err.noRulesAvailable :=
  C4_no_rules_available AdbServerChoice.never scanC4 envC4 [] rfl rfl rfl

/-- Claim C8: with `test_load_only` set, no device is acquired and no scan
runs, and when adb startup, path choice, rules load and repository init all
succeed, the invocation returns success. -/
theorem C8_test_load_only_short_circuit (choice : AdbServerChoice)
    (scan : ScanArgs) (env : ScanEnv) (htlo : scan.test_load_only = true) :
    (∀ s, Effect.deviceAcquire s ∉ (runScan choice scan env).2) ∧
    Effect.scanRun ∉ (runScan choice scan env).2 ∧
    (∀ tadb rp rs sha repo,
      ensure_adb_running choice env.adbSpawn = (Except.ok (), tadb) →
      rules_path_choice scan env = Except.ok rp →
      env.load rp = Except.ok (rs, sha) →
      env.repoInit = Except.ok repo →
      (runScan choice scan env).1 = Except.ok ()) := by
  refine ⟨?_, ?_, ?_⟩
  · intro s hx
    rcases runScan_cases choice scan env with h | ⟨tadb, rp, hadb, htx, hpath, h⟩
    · exact absurd (h _ hx) (by simp)
    · rcases h with ⟨e, hl, heq⟩ | ⟨rs, sha, hl, heq⟩
      · rw [heq] at hx
        simp at hx
        exact absurd (htx _ hx) (by simp)
      · rw [heq] at hx
        rcases scanFromLoaded_deviceAcquire scan env sha _ s hx with
          h2 | ⟨_, htlo2, _⟩
        · simp at h2
          exact absurd (htx _ h2) (by simp)
        · rw [htlo] at htlo2
          exact absurd htlo2 (by simp)
  · intro hx
    rcases runScan_cases choice scan env with h | ⟨tadb, rp, hadb, htx, hpath, h⟩
    · exact absurd (h _ hx) (by simp)
    · rcases h with ⟨e, hl, heq⟩ | ⟨rs, sha, hl, heq⟩
      · rw [heq] at hx
        simp at hx
        exact absurd (htx _ hx) (by simp)
      · rw [heq] at hx
        rcases scanFromLoaded_scanRun scan env sha _ hx with h2 | ⟨htlo2, _, _⟩
        · simp at h2
          exact absurd (htx _ h2) (by simp)
        · rw [htlo] at htlo2
          exact absurd htlo2 (by simp)
  · intro tadb rp rs sha repo hadb hpath hl hr
    rw [runScan_load_ok choice scan env tadb rp rs sha hadb hpath hl]
    exact scanFromLoaded_tlo scan env sha _ repo hr htlo

/-- A scan invocation with `test_load_only` set, for the C8 witness. -/
def scanC8 : ScanArgs :=
  { rules := some "/rules/ok.yaml", serial := none, test_load_only := true }

/-- Environment for the C8 witness. -/
def envC8 : ScanEnv :=
  { adbSpawn := Except.ok { success := true },
    cacheExists := true, cachePath := "/cache/ioc.yaml",
    load := fun _ => Except.ok (["r1"], "sha-1"),
    repoInit := Except.ok { update_state := none },
    device := Except.error "unreachable", scanResult := Except.ok () }

/-- Witness for C8 at a concrete invocation. -/
theorem C8_test_load_only_short_circuit_witness :
    Effect.scanRun ∉ (runScan AdbServerChoice.never scanC8 envC8).2 ∧
    (runScan AdbServerChoice.never scanC8 envC8).1 = Except.ok () :=
  ⟨(C8_test_load_only_short_circuit AdbServerChoice.never scanC8 envC8 rfl).2.1,
   (C8_test_load_only_short_circuit AdbServerChoice.never scanC8 envC8 rfl).2.2
     [] "/rules/ok.yaml" ["r1"] "sha-1" { update_state := none } rfl rfl rfl rfl⟩

/-- Claim C10: the commit-provenance message is emitted exactly when the
repository has a persisted update state whose sha256 equals the fingerprint
of the rules file actually loaded, and it names that state's git commit. -/
theorem C10_commit_provenance (choice : AdbServerChoice) (scan : ScanArgs)
    (env : ScanEnv) (tadb : List Effect) (rp : String) (rs : List String)
    (sha : String) (repo : Repository)
    (hadb : ensure_adb_running choice env.adbSpawn = (Except.ok (), tadb))
    (hpath : rules_path_choice scan env = Except.ok rp)
    (hload : env.load rp = Except.ok (rs, sha))
    (hrepo : env.repoInit = Except.ok repo) :
    ∀ c, (Effect.logCommit c ∈ (runScan choice scan env).2 ↔
      ∃ us, repo.update_state = some us ∧ us.sha256 = sha ∧
        c = us.git_commit) := by
  intro c
  have htx := adb_trace_spawn choice env.adbSpawn (Except.ok ()) tadb hadb
  rw [runScan_load_ok choice scan env tadb rp rs sha hadb hpath hload]
  rw [scanFromLoaded_logCommit scan env sha (tadb ++ [Effect.loadRules rp]) repo c hrepo]
  constructor
  · rintro (h | h)
    · simp at h
      exact absurd (htx _ h) (by simp)
    · exact h
  · exact Or.inr

/-- The persisted update state used by the C10 witness. -/
def usC10 : UpdateState := { sha256 := "sha-1", git_commit := "deadbeef" }

/-- A scan invocation for the C10 witness. -/
def scanC10 : ScanArgs :=
  { rules := some "/rules/c10.yaml", serial := none, test_load_only := true }

/-- Environment for the C10 witness: the loaded file's sha256 matches the
persisted update state. -/
def envC10 : ScanEnv :=
  { adbSpawn := Except.ok { success := true },
    cacheExists := true, cachePath := "/cache/ioc.yaml",
    load := fun _ => Except.ok (["r1"], "sha-1"),
    repoInit := Except.ok { update_state := some usC10 },
    device := Except.ok (), scanResult := Except.ok () }

/-- Witness for C10 at a concrete invocation. -/
theorem C10_commit_provenance_witness :
    Effect.logCommit "deadbeef" ∈
      (runScan AdbServerChoice.never scanC10 envC10).2 :=
  ((C10_commit_provenance AdbServerChoice.never scanC10 envC10 []
      "/rules/c10.yaml" ["r1"] "sha-1" { update_state := some usC10 }
      rfl rfl rfl rfl) "deadbeef").mpr ⟨usC10, rfl, rfl, rfl⟩

end Spytrap

